import Mathlib

set_option maxHeartbeats 800000

namespace ArborTrail

/-!
Shallow embedding of the ArborTrail quiz application: the round-lifecycle
state machine of src/App.tsx and the globe renderer of src/unnamed/part_000.
Asynchronous provider calls are modelled by passing their outcome
(an Option value: some result on success, none on failure) into the
transition function; React state is modelled as an explicit record.
-/

/-- Difficulty enumeration from the types module. -/
inductive Difficulty
  | easy
  | medium
  | hard
deriving DecidableEq, Repr

/-- GameStatus enumeration from the types module. -/
inductive GameStatus
  | difficultySelection
  | loading
  | guessing
  | result
  | error
deriving DecidableEq, Repr

/-- GeoLocation: latitude and longitude in degrees. Coordinates are modelled
as rationals so that the data model stays decidable; the globe math below
coerces them to reals. -/
structure GeoLocation where
  lat : ℚ
  lng : ℚ
deriving DecidableEq, Repr

/-- TreeData record from the types module. -/
structure TreeData where
  id : String
  commonName : String
  scientificName : String
  autumnDescription : String
  springDescription : String
  habitats : List GeoLocation
  funFact : String
deriving DecidableEq, Repr

/-- GameRound record from the types module. springImageUrl is null until the
after image arrives. -/
structure GameRound where
  targetTree : TreeData
  options : List String
  autumnImageUrl : String
  springImageUrl : Option String
deriving DecidableEq, Repr

/-- The React component state of App (src/App.tsx lines 20 to 28), omitting
the purely presentational loadingStep message and isFactLoading flag. -/
structure AppState where
  status : GameStatus
  difficulty : Option Difficulty
  currentRound : Option GameRound
  pool : List TreeData
  score : Nat
  selectedOption : Option String
  isCorrect : Option Bool
deriving DecidableEq, Repr

/-- The distractor labels built inside startRound (src/App.tsx lines 60 to 64):
the pool entries whose id differs from the target id are shuffled by a random
comparator sort, the first two are kept and mapped to their common names.
The shuffle outcome is represented by the already permuted list passed in. -/
def distractorNames (shuffledOthers : List TreeData) : List String :=
  (shuffledOthers.take 2).map (fun t => t.commonName)

/-- The option list assembled in startRound (src/App.tsx line 66) before its
final random shuffle: the target common name followed by the distractors. -/
def roundOptions (target : TreeData) (shuffledOthers : List TreeData) : List String :=
  target.commonName :: distractorNames shuffledOthers

/-- The candidates fed to the distractor shuffle: pool entries whose id
differs from the target id (src/App.tsx line 61). -/
def otherCandidates (target : TreeData) (pool : List TreeData) : List TreeData :=
  pool.filter (fun t => t.id != target.id)

/-- The option list produced when both random comparator sorts leave the
order unchanged, one reachable outcome of the shuffles in startRound. -/
def roundOptionsId (target : TreeData) (pool : List TreeData) : List String :=
  roundOptions target (otherCandidates target pool)

/-- Transition of startRound (src/App.tsx lines 54 to 82). The function first
shows a transient LOADING status, awaits the before image, and then either
installs the new round (clearing selectedOption and isCorrect and entering
GUESSING) or, if the image request failed, only sets the status to ERROR.
opts is the final shuffled option list and beforeFetch the outcome of the
image request. -/
def startRound (s : AppState) (target : TreeData) (opts : List String)
    (beforeFetch : Option String) : AppState :=
  match beforeFetch with
  | some img =>
      { s with
        currentRound := some { targetTree := target, options := opts,
                               autumnImageUrl := img, springImageUrl := none },
        selectedOption := none,
        isCorrect := none,
        status := GameStatus.guessing }
  | none => { s with status := GameStatus.error }

/-- Transition of handleGuess (src/App.tsx lines 84 to 107): record the
choice, compare it with the target common name by exact string equality,
on a correct guess increment the score and await the spring image
(springFetch is its outcome; on failure the round is kept and only the
status moves to RESULT), on an incorrect guess go to RESULT directly. -/
def handleGuess (s : AppState) (choice : String) (springFetch : Option String) : AppState :=
  match s.currentRound with
  | none => s
  | some round =>
      let correct : Bool := choice == round.targetTree.commonName
      let s1 : AppState := { s with selectedOption := some choice, isCorrect := some correct }
      if correct then
        let s2 : AppState := { s1 with score := s1.score + 1 }
        match springFetch with
        | some img =>
            { s2 with currentRound := some { round with springImageUrl := some img },
                      status := GameStatus.result }
        | none => { s2 with status := GameStatus.result }
      else { s1 with status := GameStatus.result }

/-- The selectOption surface event: the option buttons carry
disabled when selectedOption is not null (src/App.tsx line 308), so a click
reaches handleGuess only while no choice is recorded yet. -/
def selectOption (s : AppState) (choice : String) (springFetch : Option String) : AppState :=
  match s.selectedOption with
  | some _ => s
  | none => handleGuess s choice springFetch

/-- The returnToDifficultySelection surface event: both the header logo
(src/App.tsx line 249) and the footer button (lines 392 to 397) run only
setStatus with DIFFICULTY_SELECTION. -/
def returnToDifficultySelection (s : AppState) : AppState :=
  { s with status := GameStatus.difficultySelection }

/-- The image shown for the specimen (src/App.tsx line 274): when isCorrect
is true the spring image is shown, falling back to the autumn image when the
spring image is null; otherwise the autumn image. -/
def displayedImage (s : AppState) : Option String :=
  s.currentRound.map (fun round =>
    if s.isCorrect = some true then round.springImageUrl.getD round.autumnImageUrl
    else round.autumnImageUrl)

/-- JavaScript Array.prototype.findIndex: index of the first element
satisfying the predicate, and -1 when none does. -/
def jsFindIndex (p : α → Bool) (l : List α) : Int :=
  if l.findIdx p < l.length then (l.findIdx p : Int) else -1

/-- The action taken by nextRound: start the round for a given specimen of
the existing pool, request a fresh pool for a difficulty, or do nothing. -/
inductive AdvanceAction
  | roundStart (target : TreeData)
  | poolStart (d : Difficulty)
  | stay
deriving DecidableEq, Repr

/-- Transition of nextRound (src/App.tsx lines 131 to 138): look up the index
of the current target in the pool by id, and if the following index is still
inside the pool start the round for that specimen, otherwise rerun initGame
for the stored difficulty, which requests a brand-new pool. -/
def nextRound (s : AppState) : AdvanceAction :=
  let nextIdx : Nat :=
    (jsFindIndex (fun t =>
        match s.currentRound with
        | some r => r.targetTree.id == t.id
        | none => false) s.pool + 1).toNat
  if h : nextIdx < s.pool.length then
    AdvanceAction.roundStart (s.pool.get ⟨nextIdx, h⟩)
  else
    match s.difficulty with
    | some d => AdvanceAction.poolStart d
    | none => AdvanceAction.stay

/-- One play of a round that is answered correctly: startRound succeeds with
the given before image, then the target common name itself is clicked. The
spring fetch outcome is left free. -/
def playCorrect (s : AppState) (p : TreeData × List String × String × Option String) : AppState :=
  selectOption (startRound s p.1 p.2.1 (some p.2.2.1)) p.1.commonName p.2.2.2

/-- A sequence of rounds each answered correctly. -/
def playAllCorrect (s : AppState) (plays : List (TreeData × List String × String × Option String)) :
    AppState :=
  plays.foldl playCorrect s

/-- Sample specimen with id a. -/
def oakA : TreeData :=
  { id := "a", commonName := "Oak", scientificName := "Quercus robur",
    autumnDescription := "golden broad leaves", springDescription := "fresh green leaves",
    habitats := [{ lat := 50, lng := 0 }], funFact := "very old" }

/-- Sample specimen with id b sharing the common name of oakA. -/
def oakB : TreeData :=
  { id := "b", commonName := "Oak", scientificName := "Quercus petraea",
    autumnDescription := "bronze leaves", springDescription := "pale catkins",
    habitats := [{ lat := 48, lng := 2 }], funFact := "sessile" }

/-- Sample specimen with id c and a distinct common name. -/
def mapleC : TreeData :=
  { id := "c", commonName := "Maple", scientificName := "Acer saccharum",
    autumnDescription := "red palmate leaves", springDescription := "winged seeds",
    habitats := [{ lat := 45, lng := -70 }], funFact := "syrup" }

/-- Sample specimen with id d and a distinct common name. -/
def birchD : TreeData :=
  { id := "d", commonName := "Birch", scientificName := "Betula pendula",
    autumnDescription := "small yellow leaves", springDescription := "white bark buds",
    habitats := [{ lat := 60, lng := 25 }], funFact := "pioneer" }

/-- A sample round for oakA with no spring image yet. -/
def sampleRound : GameRound :=
  { targetTree := oakA, options := ["Oak", "Maple"],
    autumnImageUrl := "img-autumn-a", springImageUrl := none }

/-- A sample mid-session state with a recorded choice and a positive score. -/
def sampleState : AppState :=
  { status := GameStatus.result, difficulty := some Difficulty.easy,
    currentRound := some sampleRound, pool := [oakA, mapleC],
    score := 5, selectedOption := some ("Oak"), isCorrect := some true }

/-- A sample state in the middle of GUESSING with no choice recorded yet. -/
def guessState : AppState :=
  { status := GameStatus.guessing, difficulty := some Difficulty.easy,
    currentRound := some sampleRound, pool := [oakA, mapleC],
    score := 0, selectedOption := none, isCorrect := none }

/-- A fresh state before any round. -/
def initState : AppState :=
  { status := GameStatus.difficultySelection, difficulty := none,
    currentRound := none, pool := [], score := 0,
    selectedOption := none, isCorrect := none }

/-- Events driving the Globe render loop of src/unnamed/part_000: a tick is
the scheduled requestAnimationFrame callback firing, stop is the effect
cleanup calling cancelAnimationFrame, which discards the scheduled callback
so that no later tick runs. -/
inductive GlobeEvent
  | tick
  | stop
deriving DecidableEq, Repr

/-- State of the Globe render loop: the rotation closure variable (degrees,
a rational since the increment 0.25 is exact) and whether an animation frame
is still scheduled. -/
structure GlobeState where
  rotation : ℚ
  active : Bool
deriving DecidableEq, Repr

/-- One scheduler step of the render loop (src/unnamed/part_000 lines 77 to
143): while a frame is scheduled, each tick runs render once, which advances
rotation by the fixed 0.25 degree increment and reschedules itself; after
stop no frame is scheduled, so a tick has no effect, and nothing ever
reschedules the loop. -/
def globeStep (s : GlobeState) (e : GlobeEvent) : GlobeState :=
  match e with
  | GlobeEvent.tick => if s.active then { s with rotation := s.rotation + 1/4 } else s
  | GlobeEvent.stop => { s with active := false }

/-- Run the render-loop scheduler over a sequence of events. -/
def globeRun (s : GlobeState) (es : List GlobeEvent) : GlobeState :=
  es.foldl globeStep s

noncomputable section

/-- Degrees to radians. -/
def degToRad (d : ℝ) : ℝ := d * Real.pi / 180

/-- Unit sphere vector of a longitude and latitude given in radians, with the
x axis through longitude 0 latitude 0 and the z axis through the north pole. -/
def sphereVec (lng lat : ℝ) : ℝ × ℝ × ℝ :=
  (Real.cos lat * Real.cos lng, Real.cos lat * Real.sin lng, Real.sin lat)

/-- Unit sphere vector of a d3 point, given as longitude then latitude in
degrees. -/
def toVec (p : ℝ × ℝ) : ℝ × ℝ × ℝ := sphereVec (degToRad p.1) (degToRad p.2)

/-- Euclidean dot product on sphere vectors. -/
def dot3 (v w : ℝ × ℝ × ℝ) : ℝ := v.1 * w.1 + v.2.1 * w.2.1 + v.2.2 * w.2.2

/-- The first d3 rotation stage: adding the angle a to the longitude, that
is, a rotation about the polar axis. -/
def rotLambda (a : ℝ) (v : ℝ × ℝ × ℝ) : ℝ × ℝ × ℝ :=
  (v.1 * Real.cos a - v.2.1 * Real.sin a,
   v.1 * Real.sin a + v.2.1 * Real.cos a,
   v.2.2)

/-- The second d3 rotation stage for the latitude offset: a rotation about
the y axis, following the d3 rotationPhiGamma formulas with gamma zero. -/
def rotPhi (a : ℝ) (v : ℝ × ℝ × ℝ) : ℝ × ℝ × ℝ :=
  (v.1 * Real.cos a - v.2.2 * Real.sin a,
   v.2.1,
   v.2.2 * Real.cos a + v.1 * Real.sin a)

/-- The d3 two-angle rotation set by projection.rotate([lambda, phi]) in
degrees, applied to a sphere vector. -/
def rotateD3 (rot : ℝ × ℝ) (v : ℝ × ℝ × ℝ) : ℝ × ℝ × ℝ :=
  rotPhi (degToRad rot.2) (rotLambda (degToRad rot.1) v)

/-- Model of d3.geoDistance: the great-circle angular distance in radians
between two degree points, the arc cosine of the dot product of their unit
vectors. -/
def geoDistance (p q : ℝ × ℝ) : ℝ := Real.arccos (dot3 (toVec p) (toVec q))

/-- The coordinate currently facing the viewer, written in the render loop
as the negated rotation angles (src/unnamed/part_000 line 117). -/
def subRotationPoint (rot : ℝ × ℝ) : ℝ × ℝ := (-rot.1, -rot.2)

/-- The marker draw test of the render loop (src/unnamed/part_000 lines 113
to 137): a habitat point is drawn iff its geodesic distance to the
sub-rotation point is strictly below pi over two. The orthographic raw
projection itself is total, so the coords null check never suppresses a
point and the distance test alone decides drawing. -/
def markerDrawn (rot : ℝ × ℝ) (loc : ℝ × ℝ) : Prop :=
  geoDistance loc (subRotationPoint rot) < Real.pi / 2

/-- The 90 degree clip boundary of the orthographic projection
(clipAngle(90), src/unnamed/part_000 line 73): exactly the points whose
rotated image lies on the front hemisphere, that is, has positive x
component towards the viewer, appear inside the rendered disk. -/
def frontHemisphere (rot : ℝ × ℝ) (loc : ℝ × ℝ) : Prop :=
  0 < (rotateD3 rot (toVec loc)).1

/-- The marker pulse of the render loop (src/unnamed/part_000 line 120):
the sine of the clock in milliseconds divided by 300, remapped from the
interval [-1, 1] to [0, 1]. -/
def pulse (t : ℝ) : ℝ := (Real.sin (t / 300) + 1) / 2

/-- Each marker computes its pulse from the shared wall clock alone; the
habitat location does not enter the computation. -/
def markerPulse (_loc : ℝ × ℝ) (t : ℝ) : ℝ := pulse t

end

/-! Theorems. -/

/-- Claim C2 counterexample: on a state with score 5, a nonempty pool and a
current round, the returnToDifficultySelection event produces a
DifficultySelection state whose score is still 5 and whose pool and round
are retained, refuting the claimed unconditional discard. -/
theorem return_keeps_state_counterexample :
    (returnToDifficultySelection sampleState).status = GameStatus.difficultySelection ∧
    (returnToDifficultySelection sampleState).score = 5 ∧
    (returnToDifficultySelection sampleState).pool ≠ [] ∧
    (returnToDifficultySelection sampleState).currentRound ≠ none := by
  refine ⟨rfl, rfl, ?_, ?_⟩ <;> decide

/-- Claim C2 (amended): for every session state, the
returnToDifficultySelection event unconditionally moves the status to
DifficultySelection, and it leaves the pool, the current round, the score,
the difficulty, the recorded choice and the correctness flag unchanged. -/
theorem return_only_sets_status (s : AppState) :
    (returnToDifficultySelection s).status = GameStatus.difficultySelection ∧
    (returnToDifficultySelection s).pool = s.pool ∧
    (returnToDifficultySelection s).currentRound = s.currentRound ∧
    (returnToDifficultySelection s).score = s.score ∧
    (returnToDifficultySelection s).difficulty = s.difficulty ∧
    (returnToDifficultySelection s).selectedOption = s.selectedOption ∧
    (returnToDifficultySelection s).isCorrect = s.isCorrect :=
  ⟨rfl, rfl, rfl, rfl, rfl, rfl, rfl⟩

/-- Claim C3: once a choice has been recorded, any further selectOption
event is ignored completely: the whole state, in particular the recorded
choice, the score and the round, is unchanged, whatever the outcome of any
spring image fetch would have been. -/
theorem guess_ignored_once_recorded (s : AppState) (v choice : String)
    (img : Option String) (h : s.selectedOption = some v) :
    selectOption s choice img = s := by
  unfold selectOption
  rw [h]

/-- Witness for claim C3 at a concrete state with a recorded choice. -/
theorem guess_ignored_once_recorded_witness :
    sampleState.selectedOption = some ("Oak") ∧
    selectOption sampleState ("Maple") none = sampleState :=
  ⟨rfl, guess_ignored_once_recorded sampleState ("Oak") ("Maple") none rfl⟩

/-- Claim C10: when the before image fetch fails inside startRound, the
resulting state is the prior state with only the status replaced by Error:
round, pool, score, difficulty, recorded choice and correctness flag all
retain their previous values. -/
theorem before_image_failure_only_status (s : AppState) (target : TreeData)
    (opts : List String) :
    (startRound s target opts none).status = GameStatus.error ∧
    (startRound s target opts none).currentRound = s.currentRound ∧
    (startRound s target opts none).pool = s.pool ∧
    (startRound s target opts none).score = s.score ∧
    (startRound s target opts none).difficulty = s.difficulty ∧
    (startRound s target opts none).selectedOption = s.selectedOption ∧
    (startRound s target opts none).isCorrect = s.isCorrect :=
  ⟨rfl, rfl, rfl, rfl, rfl, rfl, rfl⟩

/-- Claim C5: on a correct guess whose spring image fetch fails, the state
still reaches Result (the transition is total, no exception escapes), the
round keeps a null spring image, the displayed image falls back to the
autumn image, and both the score and the pool are exactly what they would
have been had the fetch succeeded. -/
theorem after_image_failure_degrades (s : AppState) (round : GameRound)
    (choice : String) (img : String)
    (hround : s.currentRound = some round)
    (hnospring : round.springImageUrl = none)
    (hfresh : s.selectedOption = none)
    (hchoice : choice = round.targetTree.commonName) :
    (selectOption s choice none).status = GameStatus.result ∧
    (selectOption s choice none).currentRound = some round ∧
    ((selectOption s choice none).currentRound.map (fun r => r.springImageUrl)) = some none ∧
    displayedImage (selectOption s choice none) = some round.autumnImageUrl ∧
    (selectOption s choice none).score = (selectOption s choice (some img)).score ∧
    (selectOption s choice none).pool = (selectOption s choice (some img)).pool := by
  subst hchoice
  simp [selectOption, handleGuess, hround, hfresh, displayedImage, hnospring]

/-- Witness for claim C5 at a concrete guessing state. -/
theorem after_image_failure_degrades_witness :
    (selectOption guessState ("Oak") none).status = GameStatus.result ∧
    displayedImage (selectOption guessState ("Oak") none) = some ("img-autumn-a") := by
  have h := after_image_failure_degrades guessState sampleRound ("Oak") ("img-spring")
    rfl rfl rfl rfl
  exact ⟨h.1, h.2.2.2.1.trans rfl⟩

/-- A correctly answered round adds exactly one to the score. -/
theorem playCorrect_score (s : AppState)
    (p : TreeData × List String × String × Option String) :
    (playCorrect s p).score = s.score + 1 := by
  obtain ⟨t, opts, img, spring⟩ := p
  cases spring <;> simp [playCorrect, selectOption, startRound, handleGuess]

/-- Folding correctly answered rounds adds their number to the score. -/
theorem playAllCorrect_score (s : AppState)
    (plays : List (TreeData × List String × String × Option String)) :
    (playAllCorrect s plays).score = s.score + plays.length := by
  induction plays generalizing s with
  | nil => rfl
  | cons p ps ih =>
      have h1 : playAllCorrect s (p :: ps) = playAllCorrect (playCorrect s p) ps := rfl
      rw [h1, ih, playCorrect_score]
      simp [Nat.add_comm, Nat.add_assoc, Nat.add_left_comm]

/-- Claim C4: starting from score zero, after k consecutive correct guesses
the score equals k; and a selectOption event whose choice differs from the
target common name never changes the score. -/
theorem score_counts_correct_guesses (s0 : AppState)
    (plays : List (TreeData × List String × String × Option String))
    (h0 : s0.score = 0)
    (s : AppState) (choice : String) (img : Option String)
    (hwrong : ∀ round, s.currentRound = some round → choice ≠ round.targetTree.commonName) :
    (playAllCorrect s0 plays).score = plays.length ∧
    (selectOption s choice img).score = s.score := by
  constructor
  · rw [playAllCorrect_score, h0, Nat.zero_add]
  · unfold selectOption
    cases hsel : s.selectedOption with
    | some v => rfl
    | none =>
        unfold handleGuess
        cases hr : s.currentRound with
        | none => rfl
        | some round =>
            have hne := hwrong round hr
            simp [hne]

/-- Witness for claim C4: one correct round from a fresh state scores 1,
and a wrong guess in a concrete guessing state leaves the score at 0. -/
theorem score_counts_correct_guesses_witness :
    (playAllCorrect initState [(oakA, ["Oak", "Maple"], ("img1"), none)]).score = 1 ∧
    (selectOption guessState ("Birch") none).score = guessState.score :=
  score_counts_correct_guesses initState [(oakA, ["Oak", "Maple"], ("img1"), none)] rfl
    guessState ("Birch") none
    (fun round hr => by
      have h2 : some sampleRound = some round := hr
      rw [← Option.some.inj h2]
      decide)

/-- Claim C1 counterexample: on the two-specimen pool [oakA, oakB], whose
entries share the common name Oak, the option list built with the identity
shuffle outcome (one reachable outcome of the random comparator sorts) is
[Oak, Oak]: the labels are not pairwise distinct and the target common name
occurs twice rather than exactly once. -/
theorem options_dup_counterexample :
    roundOptionsId oakA [oakA, oakB] = ["Oak", "Oak"] ∧
    ¬ (roundOptionsId oakA [oakA, oakB]).Nodup ∧
    (roundOptionsId oakA [oakA, oakB]).count ("Oak") = 2 := by
  refine ⟨rfl, ?_, ?_⟩ <;> decide

/-- A subpermutation maps to a subpermutation. -/
theorem subperm_map (f : α → β) {l₁ l₂ : List α} (h : List.Subperm l₁ l₂) :
    List.Subperm (l₁.map f) (l₂.map f) := by
  obtain ⟨w, hw, hs⟩ := h
  exact ⟨w.map f, hw.map f, hs.map f⟩

/-- With pairwise distinct ids and the target inside the pool, filtering the
target id away removes exactly one entry. -/
theorem otherCandidates_length (target : TreeData) :
    ∀ pool : List TreeData, target ∈ pool → (pool.map (fun t => t.id)).Nodup →
      (otherCandidates target pool).length + 1 = pool.length := by
  intro pool
  induction pool with
  | nil => intro h; cases h
  | cons a tl ih =>
      intro hmem hnd
      rw [List.map_cons, List.nodup_cons] at hnd
      by_cases hid : a.id = target.id
      · have hkeep : tl.filter (fun t => t.id != target.id) = tl := by
          rw [List.filter_eq_self]
          intro t ht
          have hne : t.id ≠ target.id := by
            intro he
            exact hnd.1 (by rw [hid, ← he]; exact List.mem_map_of_mem _ ht)
          simpa [bne_iff_ne] using hne
        have hdrop : (a.id != target.id) = false := by simp [hid]
        simp [otherCandidates, List.filter_cons, hdrop, hkeep]
      · have hkeep : (a.id != target.id) = true := by simpa [bne_iff_ne] using hid
        have hmem2 : target ∈ tl := by
          rcases List.mem_cons.mp hmem with h | h
          · exact absurd (by rw [h]) hid
          · exact h
        have := ih hmem2 hnd.2
        simp only [otherCandidates, List.filter_cons, hkeep, if_true, List.length_cons] at *
        omega

/-- Claim C1 (amended): for every fetched pool (pairwise distinct ids) whose
specimens moreover have pairwise distinct common names, every option list
built at round start, that is, every shuffle outcome of the candidate list
and of the assembled options, has exactly min(n, 3) labels, is pairwise
distinct, and contains the target common name exactly once. Without the
distinct-common-name assumption the code performs no dedupe and the property
fails, see the counterexample. -/
theorem options_distinct_amended (pool : List TreeData) (target : TreeData)
    (others : List TreeData) (opts : List String)
    (hmem : target ∈ pool)
    (hids : (pool.map (fun t => t.id)).Nodup)
    (hnames : (pool.map (fun t => t.commonName)).Nodup)
    (hperm : others.Perm (otherCandidates target pool))
    (hopts : opts.Perm (roundOptions target others)) :
    opts.length = min pool.length 3 ∧ opts.Nodup ∧ opts.count target.commonName = 1 := by
  have htake : List.Subperm (others.take 2) pool :=
    ((List.take_sublist 2 others).subperm.trans hperm.subperm).trans
      (List.filter_sublist pool).subperm
  have hnotmem : target ∉ others.take 2 := by
    intro hx
    have hx1 : target ∈ others := List.mem_of_mem_take hx
    have hx2 : target ∈ otherCandidates target pool := hperm.mem_iff.mp hx1
    have hx3 := List.of_mem_filter hx2
    simp [bne_iff_ne] at hx3
  have hcons : List.Subperm (target :: others.take 2) pool := by
    refine htake.cons_left target ?_
    have h0 : List.count target (others.take 2) = 0 := List.count_eq_zero_of_not_mem hnotmem
    have h1 : 0 < List.count target pool := List.count_pos_iff.mpr hmem
    omega
  have hmapsub : List.Subperm ((target :: others.take 2).map (fun t => t.commonName))
      (pool.map (fun t => t.commonName)) := subperm_map _ hcons
  have hnodup_round : (roundOptions target others).Nodup := by
    obtain ⟨w, hwperm, hwsub⟩ := hmapsub
    have hw : ((target :: others.take 2).map (fun t => t.commonName)).Nodup :=
      hwperm.nodup_iff.mp (List.Nodup.sublist hwsub hnames)
    simpa [roundOptions, distractorNames] using hw
  have hnodup : opts.Nodup := hopts.nodup_iff.mpr hnodup_round
  have hmemopts : target.commonName ∈ opts :=
    hopts.mem_iff.mpr (by simp [roundOptions])
  have hcount : opts.count target.commonName = 1 :=
    List.count_eq_one_of_mem hnodup hmemopts
  have hlen : opts.length = min pool.length 3 := by
    have h1 : opts.length = 1 + min 2 others.length := by
      rw [hopts.length_eq]
      simp [roundOptions, distractorNames, List.length_take]
      omega
    have h2 : others.length = (otherCandidates target pool).length := hperm.length_eq
    have h3 := otherCandidates_length target pool hmem hids
    omega
  exact ⟨hlen, hnodup, hcount⟩

/-- Witness for claim C1 (amended) on a three-specimen pool with distinct
common names and the identity shuffle outcome. -/
theorem options_distinct_amended_witness :
    (roundOptionsId oakA [oakA, mapleC, birchD]).length = min 3 3 ∧
    (roundOptionsId oakA [oakA, mapleC, birchD]).Nodup ∧
    (roundOptionsId oakA [oakA, mapleC, birchD]).count oakA.commonName = 1 :=
  options_distinct_amended [oakA, mapleC, birchD] oakA
    (otherCandidates oakA [oakA, mapleC, birchD])
    (roundOptionsId oakA [oakA, mapleC, birchD])
    (by decide) (by decide) (by decide) (List.Perm.refl _) (List.Perm.refl _)

/-- With pairwise distinct ids, the id search of nextRound finds exactly the
position of the current target. -/
theorem findIdx_id_eq (target : TreeData) :
    ∀ (l : List TreeData) (i : Nat) (hi : i < l.length),
      (l.map (fun t => t.id)).Nodup → l.get ⟨i, hi⟩ = target →
      l.findIdx (fun t => target.id == t.id) = i := by
  intro l
  induction l with
  | nil => intro i hi; cases hi
  | cons a tl ih =>
      intro i hi hnd hget
      rw [List.map_cons, List.nodup_cons] at hnd
      cases i with
      | zero =>
          have ha : a = target := by simpa using hget
          simp [List.findIdx_cons, ha]
      | succ j =>
          have hj : j < tl.length := Nat.lt_of_succ_lt_succ hi
          have hgt : tl.get ⟨j, hj⟩ = target := by simpa using hget
          have htmem : target ∈ tl := by rw [← hgt]; exact tl.get_mem _ _
          have hne : (target.id == a.id) = false := by
            rw [beq_eq_false_iff_ne]
            intro he
            exact hnd.1 (by rw [← he]; exact List.mem_map_of_mem _ htmem)
          rw [List.findIdx_cons, hne]
          simpa using ih j hj hnd.2 hgt

/-- Claim C6: from a state whose current round targets the specimen at
position i of a pool with pairwise distinct ids, the advance event starts a
round for the specimen at position i + 1 when it exists, and otherwise
requests a brand-new pool for the stored difficulty, so the session loops
and never skips or reorders specimens. -/
theorem advance_in_pool_order (s : AppState) (round : GameRound) (i : Nat) (d : Difficulty)
    (hround : s.currentRound = some round)
    (hi : i < s.pool.length)
    (htarget : s.pool.get ⟨i, hi⟩ = round.targetTree)
    (hids : (s.pool.map (fun t => t.id)).Nodup)
    (hd : s.difficulty = some d) :
    nextRound s =
      if h : i + 1 < s.pool.length then AdvanceAction.roundStart (s.pool.get ⟨i + 1, h⟩)
      else AdvanceAction.poolStart d := by
  have hfind : s.pool.findIdx (fun t => round.targetTree.id == t.id) = i :=
    findIdx_id_eq round.targetTree s.pool i hi hids htarget
  unfold nextRound jsFindIndex
  rw [hround]
  simp only [hfind, hi, if_pos]
  have htn : ((i : Int) + 1).toNat = i + 1 := by omega
  simp only [htn]
  split
  · rfl
  · rw [hd]

/-- Witness for claim C6 at a concrete two-specimen pool: advancing from the
first specimen starts the round of the second. -/
theorem advance_in_pool_order_witness :
    nextRound sampleState = AdvanceAction.roundStart mapleC := by
  have h0 : (0 : Nat) < sampleState.pool.length := by decide
  rw [advance_in_pool_order sampleState sampleRound 0 Difficulty.easy rfl h0 rfl
    (by decide) rfl]
  decide

/-- The longitude rotation stage preserves the dot product. -/
theorem dot3_rotLambda (a : ℝ) (v w : ℝ × ℝ × ℝ) :
    dot3 (rotLambda a v) (rotLambda a w) = dot3 v w := by
  simp only [dot3, rotLambda]
  linear_combination (v.1 * w.1 + v.2.1 * w.2.1) * Real.sin_sq_add_cos_sq a

/-- The latitude rotation stage preserves the dot product. -/
theorem dot3_rotPhi (a : ℝ) (v w : ℝ × ℝ × ℝ) :
    dot3 (rotPhi a v) (rotPhi a w) = dot3 v w := by
  simp only [dot3, rotPhi]
  linear_combination (v.1 * w.1 + v.2.2 * w.2.2) * Real.sin_sq_add_cos_sq a

/-- The d3 rotation preserves the dot product. -/
theorem dot3_rotateD3 (rot : ℝ × ℝ) (v w : ℝ × ℝ × ℝ) :
    dot3 (rotateD3 rot v) (rotateD3 rot w) = dot3 v w := by
  unfold rotateD3
  rw [dot3_rotPhi, dot3_rotLambda]

/-- The sub-rotation point is exactly the point that the rotation carries to
the projection center, the direction towards the viewer. -/
theorem rotateD3_subRotationPoint (rot : ℝ × ℝ) :
    rotateD3 rot (toVec (subRotationPoint rot)) = (1, 0, 0) := by
  unfold rotateD3 toVec subRotationPoint sphereVec rotLambda rotPhi degToRad
  have ha := Real.sin_sq_add_cos_sq (rot.1 * Real.pi / 180)
  have hb := Real.sin_sq_add_cos_sq (rot.2 * Real.pi / 180)
  have h1 : -rot.1 * Real.pi / 180 = -(rot.1 * Real.pi / 180) := by ring
  have h2 : -rot.2 * Real.pi / 180 = -(rot.2 * Real.pi / 180) := by ring
  simp only [h1, h2, Real.cos_neg, Real.sin_neg, Prod.mk.injEq]
  refine ⟨?_, ?_, ?_⟩
  · linear_combination (Real.cos (rot.2 * Real.pi / 180)) ^ 2 * ha + hb
  · ring
  · linear_combination (Real.cos (rot.2 * Real.pi / 180)) *
      (Real.sin (rot.2 * Real.pi / 180)) * ha

/-- Claim C7: a habitat marker is drawn iff the geodesic distance from the
point to the sub-rotation coordinate is strictly below pi over two, and this
holds iff the rotated point lies on the front hemisphere, the exact
90 degree clip boundary of the orthographic projection: no marker outside
the rendered disk, none wrongly hidden inside it. -/
theorem marker_visibility_matches_clip (rot loc : ℝ × ℝ) :
    markerDrawn rot loc ↔ frontHemisphere rot loc := by
  unfold markerDrawn frontHemisphere geoDistance
  rw [Real.arccos_lt_pi_div_two]
  have h : dot3 (toVec loc) (toVec (subRotationPoint rot)) = (rotateD3 rot (toVec loc)).1 := by
    rw [← dot3_rotateD3 rot, rotateD3_subRotationPoint]
    simp [dot3]
  rw [h]

/-- Once the animation frame is cancelled, no later event changes the
render-loop state. -/
theorem globeRun_inactive (es : List GlobeEvent) :
    ∀ s : GlobeState, s.active = false → globeRun s es = s := by
  induction es with
  | nil => intro s _; rfl
  | cons e tl ih =>
      intro s h
      cases e with
      | tick =>
          have h1 : globeStep s GlobeEvent.tick = s := by simp [globeStep, h]
          show globeRun (globeStep s GlobeEvent.tick) tl = s
          rw [h1]
          exact ih s h
      | stop =>
          have h1 : globeStep s GlobeEvent.stop = s := by
            cases s with
            | mk r a => cases h; rfl
          show globeRun (globeStep s GlobeEvent.stop) tl = s
          rw [h1]
          exact ih s h

/-- Claim C8: while the loop is active each tick advances the rotation by
exactly the fixed increment 0.25 degrees, so the stored angle strictly
increases each frame; after stop cancels the scheduled frame no event ever
changes the rotation again; and the orientation of the globe is periodic in
the angle with period 360 degrees, so the advancing angle is equivalent to
one that wraps mod 360. -/
theorem rotation_advances_and_stops (s : GlobeState) (hact : s.active = true)
    (es : List GlobeEvent) (r : ℝ) (v : ℝ × ℝ × ℝ) :
    (globeStep s GlobeEvent.tick).rotation = s.rotation + 1/4 ∧
    s.rotation < (globeStep s GlobeEvent.tick).rotation ∧
    (globeRun (globeStep s GlobeEvent.stop) es).rotation = s.rotation ∧
    rotateD3 (r + 360, -15) v = rotateD3 (r, -15) v := by
  refine ⟨?_, ?_, ?_, ?_⟩
  · simp [globeStep, hact]
  · simp only [globeStep, hact, if_true]
    have : (0 : ℚ) < 1/4 := by norm_num
    linarith
  · rw [globeRun_inactive es _ rfl]
    rfl
  · have hdeg : degToRad (r + 360) = degToRad r + 2 * Real.pi := by
      unfold degToRad; ring
    have hlam : rotLambda (degToRad (r + 360)) v = rotLambda (degToRad r) v := by
      unfold rotLambda
      rw [hdeg, Real.cos_add_two_pi, Real.sin_add_two_pi]
    show rotPhi (degToRad (-15)) (rotLambda (degToRad (r + 360)) v) =
      rotPhi (degToRad (-15)) (rotLambda (degToRad r) v)
    rw [hlam]

/-- Witness for claim C8 at a concrete active render-loop state. -/
theorem rotation_advances_and_stops_witness :
    ({ rotation := 0, active := true } : GlobeState).active = true ∧
    ((globeStep { rotation := 0, active := true } GlobeEvent.tick).rotation = (0 : ℚ) + 1/4 ∧
     (0 : ℚ) < (globeStep { rotation := 0, active := true } GlobeEvent.tick).rotation ∧
     (globeRun (globeStep { rotation := 0, active := true } GlobeEvent.stop)
        [GlobeEvent.tick]).rotation = (0 : ℚ) ∧
     rotateD3 ((0 : ℝ) + 360, -15) (1, 0, 0) = rotateD3 ((0 : ℝ), -15) (1, 0, 0)) :=
  ⟨rfl, rotation_advances_and_stops { rotation := 0, active := true } rfl
    [GlobeEvent.tick] 0 (1, 0, 0)⟩

/-- Claim C9 counterexample: the pulse has no period in the stated 300 to
400 millisecond band: for any candidate P there, the pulse at time P
differs from the pulse at time 0, because sin(P/300) is positive on that
whole band. The actual period is 600 pi milliseconds. -/
theorem pulse_period_not_300_400 :
    ¬ ∃ P : ℝ, 300 ≤ P ∧ P ≤ 400 ∧ Function.Periodic pulse P := by
  rintro ⟨P, h3, h4, hper⟩
  have h0 : pulse (0 + P) = pulse 0 := hper 0
  unfold pulse at h0
  have e1 : ((0 : ℝ) + P) / 300 = P / 300 := by ring
  rw [e1] at h0
  have e2 : Real.sin ((0 : ℝ) / 300) = 0 := by norm_num
  rw [e2] at h0
  have hsin : Real.sin (P / 300) = 0 := by linarith
  have hgt : (0 : ℝ) < P / 300 := by linarith
  have hlt : P / 300 < Real.pi := by
    have hpi := Real.pi_gt_three
    linarith
  have := Real.sin_pos_of_pos_of_lt_pi hgt hlt
  linarith

/-- Claim C9 (amended): at every clock time t each visible marker shows the
same pulse value, lying in the closed interval [0, 1], obtained by remapping
sin(t/300) from [-1, 1] to [0, 1]; the pulse is deterministic given time and
periodic with fixed period 600 pi milliseconds, about 1885 ms, rather than
the stated 300 to 400 ms: the constant 300 is the time divisor, not the
period. -/
theorem pulse_bounds_and_period (t : ℝ) (l1 l2 : ℝ × ℝ) :
    0 ≤ pulse t ∧ pulse t ≤ 1 ∧ markerPulse l1 t = markerPulse l2 t ∧
    Function.Periodic pulse (600 * Real.pi) := by
  refine ⟨?_, ?_, rfl, ?_⟩
  · have h := Real.neg_one_le_sin (t / 300)
    unfold pulse
    linarith
  · have h := Real.sin_le_one (t / 300)
    unfold pulse
    linarith
  · intro x
    unfold pulse
    have h : (x + 600 * Real.pi) / 300 = x / 300 + 2 * Real.pi := by ring
    rw [h, Real.sin_add_two_pi]

end ArborTrail
